import Mathlib

/-!
# api-rest-go-bin: a verification development

The repository is three Go files: `cmd/myapp/main.go`, `internal/router/router.go`
and `internal/handler/handler.go`.  Everything they do is done by calling the gin
web framework (`gin.Default`, `Engine.GET`, `Context.JSON`, `Engine.Run`), the Go
standard library (`net/http`, `encoding/json`, `path`, `log`).

The three files are embedded literally at the end of the definitions
(`handler.Ping`, `handler.Initial`, `router.SetupRouter`, `main`).  The library
functions they call are embedded before them, following the libraries' own
sources (gin `gin.go`, `routergroup.go`, `tree.go`, `context.go`,
`response_writer.go`, `render/json.go`; Go `net/http`, `encoding/json`, `path`),
restricted to what this program can reach:

* routes are static (no `:param` or `*catchall` segment is registered anywhere in
  the program), so the wildcard branches of the radix tree are reported as an
  error instead of being modelled;
* the per-node `priority` counter of the radix tree, which only reorders siblings
  to speed up lookups, is left out;
* the response is written to an in-memory recorder (as with
  `httptest.ResponseRecorder`), so a write never fails;
* what `gin.Logger` prints on standard output is not part of the model.

Go strings are byte strings; here they are `String`/`List Char`.  Effects are
made explicit by state passing: a handler is a function `Context → Context`.
Loops whose termination depends on run-time data take a `fuel` argument and
return `Except.error` when it runs out.
-/

/-! ## net/http -/

namespace http

def StatusOK : Nat := 200
def StatusNoContent : Nat := 204
def StatusMovedPermanently : Nat := 301
def StatusNotModified : Nat := 304
def StatusTemporaryRedirect : Nat := 307
def StatusNotFound : Nat := 404
def StatusMethodNotAllowed : Nat := 405

def MethodGet : String := "GET"
def MethodHead : String := "HEAD"
def MethodConnect : String := "CONNECT"

/-- Reason phrases of the status codes this program can send (`http.StatusText`). -/
def StatusText (code : Nat) : String :=
  if code = 200 then "OK"
  else if code = 301 then "Moved Permanently"
  else if code = 307 then "Temporary Redirect"
  else if code = 404 then "Not Found"
  else if code = 405 then "Method Not Allowed"
  else ""

/-- The header map of a request or response, as an association list. -/
abbrev Header := List (String × String)

/-- Value stored under `key`, or the empty string (`Header.Get`). -/
def Header.Get (h : Header) (key : String) : String :=
  match h.find? (fun kv => kv.1 == key) with
  | some kv => kv.2
  | none => ""

/-- Replace the value stored under `key` (`Header.Set`). -/
def Header.Set (h : Header) (key value : String) : Header :=
  h.filter (fun kv => kv.1 != key) ++ [(key, value)]

/-- The parts of `*http.Request` a handler could read. `Path` and `RawQuery` are
`URL.Path` and `URL.RawQuery`. -/
structure Request where
  Method : String
  Path : String
  RawQuery : String
  Header : Header
  Body : String
deriving DecidableEq, Repr

/-- The underlying `http.ResponseWriter`, recording what is sent: the header map,
the status line once it is sent, and the chunks passed to `Write`, in order. -/
structure ResponseRecorder where
  Header : Header
  Code : Option Nat
  Body : List String
deriving DecidableEq, Repr

/-- A recorder on which nothing has been sent. -/
def NewRecorder : ResponseRecorder :=
  { Header := [], Code := none, Body := [] }

/-- Send the status line; a second call is ignored (`superfluous WriteHeader`). -/
def ResponseRecorder.WriteHeader (w : ResponseRecorder) (code : Nat) : ResponseRecorder :=
  match w.Code with
  | some _ => w
  | none => { w with Code := some code }

/-- Send body bytes; the status line defaults to 200 when not yet sent. -/
def ResponseRecorder.Write (w : ResponseRecorder) (data : String) : ResponseRecorder :=
  let w1 := w.WriteHeader StatusOK
  { w1 with Body := w1.Body ++ [data] }

/-- The status the client receives. -/
def ResponseRecorder.status (w : ResponseRecorder) : Nat :=
  w.Code.getD StatusOK

/-- The body bytes the client receives. -/
def ResponseRecorder.body (w : ResponseRecorder) : String :=
  String.join w.Body

end http

/-! ## path -/

namespace path

/-- Split at every slash. -/
def splitSlash : List Char → List (List Char)
  | [] => [[]]
  | c :: cs =>
    match splitSlash cs with
    | [] => [[]]
    | seg :: segs => if c = '/' then [] :: seg :: segs else (c :: seg) :: segs

/-- One step of `Clean` over the elements seen so far (kept in reverse order). -/
def cleanStep (rooted : Bool) (out : List (List Char)) (seg : List Char) : List (List Char) :=
  if seg = [] ∨ seg = ['.'] then out
  else if seg = ['.', '.'] then
    match out with
    | [] => if rooted then [] else [seg]
    | top :: below => if top = ['.', '.'] then seg :: out else below
  else seg :: out

/-- Shortest equivalent path (`path.Clean`): no empty or `.` element, `..` resolved
against its parent, no trailing slash except for the root, `.` for the empty path. -/
def Clean (p : List Char) : List Char :=
  let rooted := p.head? = some '/'
  let segs := ((splitSlash p).foldl (cleanStep rooted) []).reverse
  let joined := List.intercalate ['/'] segs
  if rooted then '/' :: joined
  else if joined = [] then ['.'] else joined

/-- The directory part of a path, up to and including its last slash (the first result
of `path.Split`). -/
def splitDir (p : List Char) : List Char :=
  (p.reverse.dropWhile (fun c => c != '/')).reverse

/-- Join two elements with a slash and clean the result (`path.Join`). -/
def Join (a b : List Char) : List Char :=
  if a = [] ∧ b = [] then []
  else if a = [] then Clean b
  else if b = [] then Clean a
  else Clean (a ++ '/' :: b)

end path

/-! ## encoding/json -/

namespace json

/-- The dynamically typed values (`any`) a `gin.H` map can hold, as far as the encoder
distinguishes them here: strings, booleans, integers, and values of a kind the encoder
rejects (functions, channels). -/
inductive any where
  | string (s : String)
  | bool (b : Bool)
  | int (i : Int)
  | func
deriving DecidableEq, Repr

def hex : List Char := "0123456789abcdef".data

/-- Encoding of one character of a string value, with HTML escaping on, as `json.Marshal`
does: backslash and double quote are backslash-escaped; `\b \f \n \r \t` have short forms;
other control characters and `< > &` become `\u00XX`; U+2028 and U+2029 become `\u202X`. -/
def appendChar (c : Char) : List Char :=
  let b := c.toNat
  if b = 0x5c ∨ b = 0x22 then [Char.ofNat 0x5c, c]
  else if b = 0x08 then "\\b".data
  else if b = 0x0c then "\\f".data
  else if b = 0x0a then "\\n".data
  else if b = 0x0d then "\\r".data
  else if b = 0x09 then "\\t".data
  else if b < 0x20 ∨ b = 0x3c ∨ b = 0x3e ∨ b = 0x26 then
    "\\u00".data ++ [hex.getD (b / 16) '0', hex.getD (b % 16) '0']
  else if b = 0x2028 ∨ b = 0x2029 then
    "\\u202".data ++ [hex.getD (b % 16) '0']
  else [c]

/-- A string value in double quotes. -/
def appendString (s : String) : String :=
  "\"" ++ String.mk (s.data.flatMap appendChar) ++ "\""

/-- Encoding of one value; an unsupported kind is an error. -/
def encodeValue : any → Except String String
  | .string s => .ok (appendString s)
  | .bool b => .ok (if b then "true" else "false")
  | .int i => .ok (toString i)
  | .func => .error "json: unsupported type: func()"

/-- Lexicographic comparison of two keys (`strings.Compare a b < 0`). -/
def keyLess (a b : String) : Bool :=
  decide (a.data < b.data)

/-- Insert an entry before the first entry with a greater key. -/
def insertKey (kv : String × any) : List (String × any) → List (String × any)
  | [] => [kv]
  | x :: xs => if keyLess kv.1 x.1 then kv :: x :: xs else x :: insertKey kv xs

/-- The entries of a map ordered by key: the encoder collects the entries of a map
(whose iteration order Go leaves unspecified) and sorts them by key. -/
def sortKeys (m : List (String × any)) : List (String × any) :=
  m.foldr insertKey []

/-- The members of an object, already sorted, separated by commas. -/
def encodeMembers : List (String × any) → Except String String
  | [] => .ok ""
  | (k, v) :: rest => do
    let ev ← encodeValue v
    let er ← encodeMembers rest
    pure (appendString k ++ ":" ++ ev ++ (if rest.isEmpty then "" else ",") ++ er)

/-- Encoding of a `map[string]any` (`json.Marshal`): members in key order between braces,
no white space and no trailing newline. -/
def Marshal (m : List (String × any)) : Except String String := do
  let members ← encodeMembers (sortKeys m)
  pure ("\x7b" ++ members ++ "\x7d")

end json

/-! ## gin: response writer, rendering, context -/

namespace gin

/-- The map type handlers pass to `Context.JSON` (`type H map[string]any`), as the list of
its entries in some iteration order. -/
abbrev H := List (String × json.any)

def noWritten : Int := -1
def defaultStatus : Nat := http.StatusOK

/-- The writer gin puts in front of the `http.ResponseWriter`: it remembers the status to
send and how many body bytes were written (`noWritten` before the status line is sent). -/
structure responseWriter where
  ResponseWriter : http.ResponseRecorder
  size : Int
  status : Nat
deriving DecidableEq, Repr

namespace responseWriter

def reset (_w : responseWriter) (writer : http.ResponseRecorder) : responseWriter :=
  { ResponseWriter := writer, size := noWritten, status := defaultStatus }

def Written (w : responseWriter) : Bool :=
  w.size != noWritten

def Status (w : responseWriter) : Nat :=
  w.status

/-- Remember the status to send; once the status line is out only a warning is printed. -/
def WriteHeader (w : responseWriter) (code : Nat) : responseWriter :=
  if code > 0 ∧ w.status ≠ code then
    if w.Written then w else { w with status := code }
  else w

def WriteHeaderNow (w : responseWriter) : responseWriter :=
  if !w.Written then
    { w with size := 0, ResponseWriter := w.ResponseWriter.WriteHeader w.status }
  else w

def Write (w : responseWriter) (data : String) : responseWriter :=
  let w1 := w.WriteHeaderNow
  { w1 with ResponseWriter := w1.ResponseWriter.Write data,
            size := w1.size + data.utf8ByteSize }

def Header (w : responseWriter) : http.Header :=
  w.ResponseWriter.Header

/-- Assignment to an entry of the header map returned by `Header()`. -/
def setHeader (w : responseWriter) (key value : String) : responseWriter :=
  { w with ResponseWriter := { w.ResponseWriter with Header := w.ResponseWriter.Header.Set key value } }

end responseWriter

namespace render

def jsonContentType : String := "application/json; charset=utf-8"
def plainContentType : String := "text/plain"

/-- Set the content type unless the header map already has one. -/
def writeContentType (w : responseWriter) (value : String) : responseWriter :=
  if (w.Header.find? (fun kv => kv.1 == "Content-Type")).isNone then
    w.setHeader "Content-Type" value
  else w

/-- Render `obj` as JSON (`render.WriteJSON`): content type, then the encoded bytes in one
`Write`; an encoding error is returned and nothing is written. -/
def WriteJSON (w : responseWriter) (obj : H) : responseWriter × Option String :=
  let w1 := writeContentType w jsonContentType
  match json.Marshal obj with
  | .error err => (w1, some err)
  | .ok jsonBytes => (w1.Write jsonBytes, none)

end render

/-- The functions of type `gin.HandlerFunc` that this program installs: the two middleware
of `gin.Default` and the two handlers of package `handler`.  What calling one of them does
is `HandlerFunc.call`. -/
inductive HandlerFunc where
  | Logger
  | Recovery
  | Initial
  | Ping
deriving DecidableEq, Repr

abbrev HandlersChain := List HandlerFunc

/-- The last handler of a chain, the main one (`HandlersChain.Last`). -/
def HandlersChain.Last (c : HandlersChain) : Option HandlerFunc :=
  c.getLast?

/-- Half of the largest `int8`: an index at or past it means the chain was aborted. -/
def abortIndex : Int := 63

/-- The per-request state gin hands to every handler (`gin.Context`). -/
structure Context where
  Request : http.Request
  writermem : responseWriter
  Params : List (String × String)
  handlers : HandlersChain
  index : Int
  fullPath : String
  Keys : List (String × String)
  Errors : List String
deriving DecidableEq, Repr

namespace Context

def reset (c : Context) : Context :=
  { c with Params := [], handlers := [], index := -1, fullPath := "", Keys := [], Errors := [] }

def Status (c : Context) (code : Nat) : Context :=
  { c with writermem := c.writermem.WriteHeader code }

def Abort (c : Context) : Context :=
  { c with index := abortIndex }

def IsAborted (c : Context) : Bool :=
  decide (c.index ≥ abortIndex)

def Error (c : Context) (err : String) : Context :=
  { c with Errors := c.Errors ++ [err] }

def bodyAllowedForStatus (status : Nat) : Bool :=
  if 100 ≤ status ∧ status ≤ 199 then false
  else if status = http.StatusNoContent then false
  else if status = http.StatusNotModified then false
  else true

/-- Write the status and render the JSON body (`Context.Render` with `render.JSON`); a
rendering error is recorded on the context and aborts the chain. -/
def Render (c : Context) (code : Nat) (obj : H) : Context :=
  let c1 := c.Status code
  if !bodyAllowedForStatus code then
    { c1 with writermem := (render.writeContentType c1.writermem render.jsonContentType).WriteHeaderNow }
  else
    match render.WriteJSON c1.writermem obj with
    | (w, some err) => ({ c1 with writermem := w }.Error err).Abort
    | (w, none) => { c1 with writermem := w }

def JSON (c : Context) (code : Nat) (obj : H) : Context :=
  c.Render code obj

end Context

end gin

/-! ## internal/handler/handler.go -/

namespace handler

def Ping (c : gin.Context) : gin.Context :=
  c.JSON http.StatusOK [
    ("message", .string "pong"),
    ("message2", .string "Soy Crack")]

def Initial (c : gin.Context) : gin.Context :=
  c.JSON http.StatusOK [
    ("message", .string "Initial"),
    ("message2", .string "Mensaje de Bienvenida")]

end handler

/-! ## gin: running a handler chain -/

namespace gin

mutual
/-- Run the handlers after the current one (`Context.Next`): `c.index++`, then the loop. -/
def Context.Next : Nat → Context → Except String Context
  | 0, _ => .error "out of fuel"
  | fuel + 1, c => Context.nextLoop fuel { c with index := c.index + 1 }
/-- The loop of `Context.Next`: while `c.index < len(c.handlers)`, call the handler at
`c.index` and increment `c.index`. -/
def Context.nextLoop : Nat → Context → Except String Context
  | 0, _ => .error "out of fuel"
  | fuel + 1, c =>
    if c.index < c.handlers.length then
      match (if c.index < 0 then none else c.handlers.get? c.index.toNat) with
      | none => .error "index out of range"
      | some h => do
        let c1 ← HandlerFunc.call fuel h c
        Context.nextLoop fuel { c1 with index := c1.index + 1 }
    else .ok c
/-- Call of a handler function. `Logger` takes the time, calls `c.Next()` and prints a log
line; `Recovery` calls `c.Next()` under a deferred `recover`. -/
def HandlerFunc.call : Nat → HandlerFunc → Context → Except String Context
  | 0, _, _ => .error "out of fuel"
  | fuel + 1, .Logger, c => Context.Next fuel c
  | fuel + 1, .Recovery, c => Context.Next fuel c
  | _ + 1, .Initial, c => .ok (handler.Initial c)
  | _ + 1, .Ping, c => .ok (handler.Ping c)
end

end gin

/-! ## gin: the radix tree of routes (`tree.go`) -/

namespace gin

inductive nodeType where
  | static
  | root
  | param
  | catchAll
deriving DecidableEq, Repr

/-- A node of the radix tree: the path segment it stands for, the first characters of its
children's segments (`indices`), and the handlers registered for the path ending here. -/
inductive node where
  | mk (path : List Char) (indices : List Char) (wildChild : Bool) (nType : nodeType)
      (children : List node) (handlers : Option HandlersChain) (fullPath : List Char) : node

namespace node

def path : node → List Char
  | mk p _ _ _ _ _ _ => p

def indices : node → List Char
  | mk _ i _ _ _ _ _ => i

def wildChild : node → Bool
  | mk _ _ w _ _ _ _ => w

def nType : node → nodeType
  | mk _ _ _ t _ _ _ => t

def children : node → List node
  | mk _ _ _ _ c _ _ => c

def handlers : node → Option HandlersChain
  | mk _ _ _ _ _ h _ => h

def fullPath : node → List Char
  | mk _ _ _ _ _ _ f => f

/-- The zero value `new(node)`. -/
def empty : node :=
  mk [] [] false .static [] none []

end node

def longestCommonPrefix : List Char → List Char → Nat
  | a :: as, b :: bs => if a = b then longestCommonPrefix as bs + 1 else 0
  | _, _ => 0

/-- Put `path` and its handlers on a fresh node (`node.insertChild` when the path has no
wildcard; a path with `:` or `*` is outside this development). -/
def node.insertChild (n : node) (path fullPath : List Char) (handlers : HandlersChain) :
    Except String node :=
  if path.any (fun c => c = ':' ∨ c = '*') then .error "not modelled: wildcard route"
  else .ok (node.mk path n.indices n.wildChild n.nType n.children (some handlers) fullPath)

/-- The `walk` loop of `node.addRoute`: split the edge at the longest common prefix, then
either descend into the child that starts with the next character, or add a new child, or
put the handlers on the current node. -/
def node.walk : Nat → node → List Char → List Char → Nat → HandlersChain → Except String node
  | 0, _, _, _, _, _ => .error "out of fuel"
  | fuel + 1, n0, path, fullPath, parentFullPathIndex, handlers =>
    let i := longestCommonPrefix path n0.path
    let n :=
      if i < n0.path.length then
        let child := node.mk (n0.path.drop i) n0.indices n0.wildChild .static n0.children
          n0.handlers n0.fullPath
        node.mk (path.take i) [n0.path.getD i '/'] false n0.nType [child] none
          (fullPath.take (parentFullPathIndex + i))
      else n0
    if i < path.length then
      let path := path.drop i
      let c := path.headD '/'
      if n.nType = .param ∧ c = '/' ∧ n.children.length = 1 then
        .error "not modelled: wildcard route"
      else
        match n.indices.indexOf? c with
        | some k =>
          match n.children.get? k with
          | none => .error "index out of range"
          | some child => do
            let child1 ← node.walk fuel child path fullPath (parentFullPathIndex + n.path.length)
              handlers
            pure (node.mk n.path n.indices n.wildChild n.nType (n.children.set k child1)
              n.handlers n.fullPath)
        | none =>
          if c ≠ ':' ∧ c ≠ '*' ∧ n.nType ≠ .catchAll ∧ !n.wildChild then do
            let child ← (node.mk [] [] false .static [] none fullPath).insertChild path fullPath
              handlers
            pure (node.mk n.path (n.indices ++ [c]) n.wildChild n.nType (n.children ++ [child])
              n.handlers n.fullPath)
          else .error "not modelled: wildcard route"
    else if n.handlers.isSome then
      .error ("handlers are already registered for path " ++ String.mk fullPath)
    else
      pure (node.mk n.path n.indices n.wildChild n.nType n.children (some handlers) fullPath)

/-- Add a route to the tree rooted at `n` (`node.addRoute`).  Every descent of `walk`
removes at least one character of `path`, which bounds the number of iterations. -/
def node.addRoute (n : node) (path : List Char) (handlers : HandlersChain) : Except String node :=
  let fullPath := path
  if n.path.length = 0 ∧ n.children.length = 0 then do
    let n1 ← n.insertChild path fullPath handlers
    pure (node.mk n1.path n1.indices n1.wildChild .root n1.children n1.handlers n1.fullPath)
  else node.walk (path.length + 1) n path fullPath 0 handlers

/-- What a lookup returns: the handlers found, or a recommendation to redirect to the same
path with or without a trailing slash (`tsr`). -/
structure nodeValue where
  handlers : Option HandlersChain
  tsr : Bool
  fullPath : List Char
deriving DecidableEq, Repr

mutual
/-- Lookup of `path` in the tree (`node.getValue`), for trees without wildcard nodes. -/
def node.getValue : node → List Char → Except String nodeValue
  | node.mk pfx indices wildChild nType children handlers fullPath, path =>
    if wildChild ∨ nType = .param ∨ nType = .catchAll then
      .error "not modelled: wildcard route"
    else if pfx.length < path.length ∧ path.take pfx.length = pfx then
      let path := path.drop pfx.length
      -- Try all the non-wildcard children first by matching the indices
      let idxc := path.headD '/'
      match indices.indexOf? idxc with
      | some i => node.getValueAt children i path
      | none =>
        -- Nothing found: recommend the URL without the trailing slash if a leaf exists
        .ok { handlers := none, tsr := decide (path = ['/']) && handlers.isSome, fullPath := [] }
    else if path = pfx then
      -- We should have reached the node containing the handle
      if handlers.isSome then
        .ok { handlers := handlers, tsr := false, fullPath := fullPath }
      else if path = ['/'] ∧ nType = .static then
        .ok { handlers := none, tsr := true, fullPath := [] }
      else
        -- No handle found: check if a handle for this path plus a trailing slash exists
        match indices.indexOf? '/' with
        | some i => node.trailingSlashAt children i
        | none => .ok { handlers := none, tsr := false, fullPath := [] }
    else
      -- Nothing found: recommend the URL with an extra trailing slash if a leaf exists
      .ok { handlers := none,
            tsr := decide (path = ['/']) ||
              (decide (pfx.length = path.length + 1) && decide (pfx.getD path.length ' ' = '/') &&
                decide (path = pfx.take (pfx.length - 1)) && handlers.isSome),
            fullPath := [] }
/-- Continue the lookup in the child at position `i` (`n = n.children[i]; continue walk`). -/
def node.getValueAt : List node → Nat → List Char → Except String nodeValue
  | [], _, _ => .error "index out of range"
  | n :: _, 0, path => node.getValue n path
  | _ :: ns, i + 1, path => node.getValueAt ns i path
/-- The recommendation read off the child at position `i`, whose segment starts with a
slash: `tsr = len(n.path) == 1 && n.handlers != nil`. -/
def node.trailingSlashAt : List node → Nat → Except String nodeValue
  | [], _ => .error "index out of range"
  | node.mk p _ _ t _ h _ :: _, 0 =>
    if t = .catchAll then .error "not modelled: wildcard route"
    else .ok { handlers := none, tsr := decide (p.length = 1) && h.isSome, fullPath := [] }
  | _ :: ns, i + 1 => node.trailingSlashAt ns i
end

/-- One registered route, as `Engine.Routes` reports it: method, path and main handler. -/
structure RouteInfo where
  Method : String
  Path : String
  HandlerFunc : Option HandlerFunc
deriving DecidableEq, Repr

mutual
/-- Collect the routes below `root`, in tree order (`iterate` in `gin.go`). -/
def iterate : List Char → String → List RouteInfo → node → List RouteInfo
  | path, method, routes, node.mk p _ _ _ children handlers _ =>
    let path := path ++ p
    let routes :=
      match handlers with
      | some hs =>
        if hs.length > 0 then
          routes ++ [{ Method := method, Path := String.mk path, HandlerFunc := HandlersChain.Last hs }]
        else routes
      | none => routes
    iterateChildren path method routes children
/-- The loop over the children in `iterate`. -/
def iterateChildren : List Char → String → List RouteInfo → List node → List RouteInfo
  | _, _, routes, [] => routes
  | path, method, routes, child :: rest =>
    iterateChildren path method (iterate path method routes child) rest
end

end gin

/-! ## net/http: redirects -/

namespace http

/-- Replacement of the five characters `htmlEscape` escapes. -/
def htmlEscapeChar (c : Char) : List Char :=
  let b := c.toNat
  if b = 0x26 then "&amp;".data
  else if b = 0x3c then "&lt;".data
  else if b = 0x3e then "&gt;".data
  else if b = 0x22 then "&#34;".data
  else if b = 0x27 then "&#39;".data
  else [c]

def htmlEscape (s : List Char) : List Char :=
  s.flatMap htmlEscapeChar

/-- Percent-encoding of one byte. -/
def hexEscapeByte (b : UInt8) : List Char :=
  ['%', json.hex.getD (b.toNat / 16) '0', json.hex.getD (b.toNat % 16) '0']

/-- Percent-encode every byte outside ASCII (`hexEscapeNonASCII`). -/
def hexEscapeNonASCII (s : List Char) : List Char :=
  s.flatMap fun c => if c.toNat < 0x80 then [c] else (String.utf8EncodeChar c).flatMap hexEscapeByte

/-- Whether every `%` is followed by two hexadecimal digits (what `url.Parse` requires of
a fragment). -/
def validEscapes : List Char → Bool
  | [] => true
  | c :: rest =>
    if c = '%' then
      match rest with
      | a :: b :: _ => a.toNat < 0x80 && b.toNat < 0x80 && a.isAlphanum && b.isAlphanum &&
          a.toLower.toNat ≤ 0x66 && b.toLower.toNat ≤ 0x66 && validEscapes rest
      | _ => false
    else validEscapes rest

/-- Whether `url.Parse` fails on a redirect target: a control character before the first
`#`, or a bad escape after it.  (The path of a target built by `redirectTrailingSlash` is
made of letters, digits, hyphens and slashes, so that no other error of `url.Parse`, and
no scheme, can arise.) -/
def parseFails (url : List Char) : Bool :=
  let parts := url.span (fun c => c != '#')
  parts.1.any (fun c => c.toNat < 0x20 || c.toNat = 0x7f) || !validEscapes (parts.2.drop 1)

/-- The host `url.Parse` reads off a target that starts with exactly two slashes: what
stands between them and the next slash (empty otherwise). -/
def parsedHost (url : List Char) : List Char :=
  let rest := (url.span (fun c => c != '#' && c != '?')).1
  if rest.take 2 = ['/', '/'] ∧ rest.take 3 ≠ ['/', '/', '/'] then
    (rest.drop 2).takeWhile (fun c => c != '/')
  else []

/-- The target `http.Redirect` puts in the `Location` header.  When the target parses and
names no host, a relative target is made absolute with the directory of the request
path, the path is cleaned keeping a trailing slash, and the query is put back; otherwise
the target is used as it is. -/
def cleanRedirectURL (r : Request) (url : List Char) : List Char :=
  if parseFails url ∨ parsedHost url ≠ [] then url
  else
    let oldpath := if r.Path.data = [] then ['/'] else r.Path.data
    let url1 := if url.head? ≠ some '/' then path.splitDir oldpath ++ url else url
    let parts := url1.span (fun c => c != '?')
    let trailing := parts.1.getLast? = some '/'
    let cleaned := path.Clean parts.1
    let cleaned := if trailing ∧ cleaned.getLast? ≠ some '/' then cleaned ++ ['/'] else cleaned
    cleaned ++ parts.2

/-- Reply with a redirect to `url` (`http.Redirect`): `Location` header, for GET and HEAD an
HTML content type, the status, and for GET a short HTML body.  The writer it is called
with in this program is gin's. -/
def Redirect (w : gin.responseWriter) (r : Request) (url : List Char) (code : Nat) :
    gin.responseWriter :=
  let url := cleanRedirectURL r url
  let hadCT := (w.Header.find? (fun kv => kv.1 == "Content-Type")).isSome
  let w1 := w.setHeader "Location" (String.mk (hexEscapeNonASCII url))
  let w2 :=
    if !hadCT ∧ (r.Method = MethodGet ∨ r.Method = MethodHead) then
      w1.setHeader "Content-Type" "text/html; charset=utf-8"
    else w1
  let w3 := w2.WriteHeader code
  if !hadCT ∧ r.Method = MethodGet then
    w3.Write ("<a href=\"" ++ String.mk (htmlEscape url) ++ "\">" ++ StatusText code ++ "</a>.\n\n")
  else w3

end http

/-! ## gin: the engine (`gin.go`, `routergroup.go`) -/

namespace gin

structure methodTree where
  method : String
  root : node

/-- The router (`gin.Engine` with its embedded `RouterGroup`): middleware, settings, one
radix tree per HTTP method, and the pool of contexts reused between requests. -/
structure Engine where
  Handlers : HandlersChain
  basePath : List Char
  RedirectTrailingSlash : Bool
  RedirectFixedPath : Bool
  HandleMethodNotAllowed : Bool
  UseRawPath : Bool
  RemoveExtraSlash : Bool
  noRoute : HandlersChain
  noMethod : HandlersChain
  allNoRoute : HandlersChain
  allNoMethod : HandlersChain
  trees : List methodTree
  pool : List Context

def default404Body : String := "404 page not found"
def default405Body : String := "405 method not allowed"

/-- The engine `gin.New` returns: no middleware, no route, trailing-slash redirects on,
fixed-path redirects and 405 answers off. -/
def New : Engine :=
  { Handlers := [], basePath := ['/'],
    RedirectTrailingSlash := true, RedirectFixedPath := false, HandleMethodNotAllowed := false,
    UseRawPath := false, RemoveExtraSlash := false,
    noRoute := [], noMethod := [], allNoRoute := [], allNoMethod := [],
    trees := [], pool := [] }

namespace Engine

/-- The group's middleware followed by `handlers` (`RouterGroup.combineHandlers`). -/
def combineHandlers (engine : Engine) (handlers : HandlersChain) : Except String HandlersChain :=
  let finalSize := engine.Handlers.length + handlers.length
  if (finalSize : Int) < abortIndex then .ok (engine.Handlers ++ handlers)
  else .error "too many handlers"

/-- Attach global middleware (`Engine.Use`) and rebuild the 404 and 405 chains. -/
def Use (engine : Engine) (middleware : HandlersChain) : Except String Engine := do
  let e1 := { engine with Handlers := engine.Handlers ++ middleware }
  let all404 ← e1.combineHandlers e1.noRoute
  let all405 ← e1.combineHandlers e1.noMethod
  pure { e1 with allNoRoute := all404, allNoMethod := all405 }

def lastChar (s : List Char) : Option Char :=
  s.getLast?

def joinPaths (absolutePath relativePath : List Char) : List Char :=
  if relativePath = [] then absolutePath
  else
    let finalPath := path.Join absolutePath relativePath
    if lastChar relativePath = some '/' ∧ lastChar finalPath ≠ some '/' then finalPath ++ ['/']
    else finalPath

def calculateAbsolutePath (engine : Engine) (relativePath : List Char) : List Char :=
  joinPaths engine.basePath relativePath

/-- Put the handlers for `method` and `path` in the tree of `method`, creating the tree on
first use (`Engine.addRoute`). -/
def addRoute (engine : Engine) (method : String) (path : List Char) (handlers : HandlersChain) :
    Except String Engine :=
  if path.head? ≠ some '/' then .error "path must begin with /"
  else if method = "" then .error "HTTP method can not be empty"
  else if handlers.length = 0 then .error "there must be at least one handler"
  else
    match engine.trees.find? (fun t => t.method == method) with
    | none => do
      let root ← (node.mk [] [] false .static [] none ['/']).addRoute path handlers
      pure { engine with trees := engine.trees ++ [{ method := method, root := root }] }
    | some _ => do
      let trees ← engine.trees.mapM fun t =>
        if t.method == method then do
          let root ← t.root.addRoute path handlers
          pure { t with root := root }
        else pure t
      pure { engine with trees := trees }

def handle (engine : Engine) (httpMethod : String) (relativePath : String)
    (handlers : HandlersChain) : Except String Engine := do
  let absolutePath := engine.calculateAbsolutePath relativePath.data
  let handlers ← engine.combineHandlers handlers
  engine.addRoute httpMethod absolutePath handlers

/-- Register handlers for the GET requests to a path (`router.GET`). -/
def GET (engine : Engine) (relativePath : String) (handlers : HandlersChain) :
    Except String Engine :=
  engine.handle http.MethodGet relativePath handlers

/-- The registered routes (`Engine.Routes`). -/
def Routes (engine : Engine) : List RouteInfo :=
  engine.trees.foldl (fun routes tree => iterate [] tree.method routes tree.root) []

end Engine

/-- The engine `gin.Default` returns: `New` with the Logger and Recovery middleware. -/
def Default : Except String Engine :=
  New.Use [.Logger, .Recovery]

/-- Drop from a forwarded prefix what is not a letter, a digit, a slash or a hyphen. -/
def safePrefix (s : List Char) : List Char :=
  s.filter fun c => c.isAlphanum || c = '/' || c = '-'

/-- Replace every run of slashes by one slash. -/
def removeRepeatedSlash : List Char → List Char
  | [] => []
  | [c] => [c]
  | a :: b :: rest => if a = '/' ∧ b = '/' then removeRepeatedSlash (b :: rest)
      else a :: removeRepeatedSlash (b :: rest)

/-- Redirect to the request URL with the new path (`redirectRequest`): 301 for GET, 307 for
the other methods.  The URL is the path followed by `?` and the raw query, if any; the
percent-escaping `URL.String` applies to reserved characters of the path is left out. -/
def redirectRequest (c : Context) : Context :=
  let req := c.Request
  let rURL := req.Path.data ++ (if req.RawQuery = "" then [] else '?' :: req.RawQuery.data)
  let code := if req.Method ≠ http.MethodGet then http.StatusTemporaryRedirect
    else http.StatusMovedPermanently
  let w := http.Redirect c.writermem req rURL code
  { c with writermem := w.WriteHeaderNow }

/-- Redirect to the path with the trailing slash added or removed
(`redirectTrailingSlash`), below the prefix of an `X-Forwarded-Prefix` header if any. -/
def redirectTrailingSlash (c : Context) : Context :=
  let req := c.Request
  let p0 := req.Path.data
  let forwarded := path.Clean (req.Header.Get "X-Forwarded-Prefix").data
  let p :=
    if forwarded ≠ ['.'] then removeRepeatedSlash (safePrefix forwarded) ++ '/' :: p0
    else p0
  let newPath :=
    if p.length > 1 ∧ p.getLast? = some '/' then p.take (p.length - 1) else p ++ ['/']
  redirectRequest { c with Request := { req with Path := String.mk newPath } }

/-- Answer with `code` after running the chain in `c.handlers`; when nothing was written
and the status is still `code`, the default plain-text message is the body (`serveError`). -/
def serveError (fuel : Nat) (c : Context) (code : Nat) (defaultMessage : String) :
    Except String Context := do
  let c1 := { c with writermem := { c.writermem with status := code } }
  let c2 ← Context.Next fuel c1
  if c2.writermem.Written then pure c2
  else if c2.writermem.Status = code then
    let w := c2.writermem.setHeader "Content-Type" render.plainContentType
    pure { c2 with writermem := w.Write defaultMessage }
  else pure { c2 with writermem := c2.writermem.WriteHeaderNow }

namespace Engine

/-- The methods other than `httpMethod` under which `rPath` has handlers. -/
def allowedMethods (engine : Engine) (httpMethod : String) (rPath : List Char) :
    Except String (List String) :=
  engine.trees.foldlM (fun allowed tree =>
    if tree.method == httpMethod then pure allowed
    else do
      let value ← tree.root.getValue rPath
      pure (if value.handlers.isSome then allowed ++ [tree.method] else allowed)) []

/-- What `handleHTTPRequest` does when no handler was found and no redirect applies: 405
with an `Allow` header when that is switched on and another method has the path, else 404. -/
def serveNotFound (fuel : Nat) (engine : Engine) (c : Context) : Except String Context := do
  let allowed ←
    if engine.HandleMethodNotAllowed ∧ engine.trees.length > 0
    then engine.allowedMethods c.Request.Method c.Request.Path.data
    else pure []
  if allowed.length > 0 then
    let c1 := { c with handlers := engine.allNoMethod,
                       writermem := c.writermem.setHeader "Allow" (String.intercalate ", " allowed) }
    serveError fuel c1 http.StatusMethodNotAllowed default405Body
  else
    serveError fuel { c with handlers := engine.allNoRoute } http.StatusNotFound default404Body

/-- Dispatch of one request (`Engine.handleHTTPRequest`): look the path up in the tree of
the request's method; run the chain found; else redirect on a trailing-slash
recommendation; else answer 405 or 404. -/
def handleHTTPRequest (fuel : Nat) (engine : Engine) (c : Context) : Except String Context :=
  let httpMethod := c.Request.Method
  let rPath := c.Request.Path.data
  if engine.UseRawPath ∨ engine.RemoveExtraSlash then .error "not modelled: raw or cleaned path"
  else
    match engine.trees.find? (fun t => t.method == httpMethod) with
    | some t => do
      let value ← t.root.getValue rPath
      match value.handlers with
      | some handlers => do
        let c1 := { c with handlers := handlers, fullPath := String.mk value.fullPath }
        let c2 ← Context.Next fuel c1
        pure { c2 with writermem := c2.writermem.WriteHeaderNow }
      | none =>
        if httpMethod ≠ http.MethodConnect ∧ rPath ≠ ['/'] then
          if value.tsr ∧ engine.RedirectTrailingSlash then pure (redirectTrailingSlash c)
          else if engine.RedirectFixedPath then .error "not modelled: fixed-path redirect"
          else engine.serveNotFound fuel c
        else engine.serveNotFound fuel c
    | none => engine.serveNotFound fuel c

/-- A context fresh from `allocateContext`. -/
def allocateContext : Context :=
  { Request := { Method := "", Path := "", RawQuery := "", Header := [], Body := "" },
    writermem := { ResponseWriter := http.NewRecorder, size := 0, status := 0 },
    Params := [], handlers := [], index := 0, fullPath := "", Keys := [], Errors := [] }

/-- Serve one request (`Engine.ServeHTTP`): take a context from the pool, reset it for this
writer and request, dispatch, and put the context back.  Returns the engine afterwards
and what the response writer received. -/
def ServeHTTP (fuel : Nat) (engine : Engine) (w : http.ResponseRecorder) (req : http.Request) :
    Except String (Engine × http.ResponseRecorder) := do
  let (c, rest) :=
    match engine.pool with
    | [] => (allocateContext, [])
    | c :: rest => (c, rest)
  let c1 := ({ c with writermem := c.writermem.reset w, Request := req }).reset
  let c2 ← engine.handleHTTPRequest fuel c1
  pure ({ engine with pool := c2 :: rest }, c2.writermem.ResponseWriter)

end Engine

/-- The operating-system side of `Engine.Run` and `log.Fatal`: the `PORT` variable, the
error `http.ListenAndServe` returns for an address (`none` for a nil error), and the
trace of what the process did: the calls of `http.ListenAndServe`, each with its address
and the handler that serves the requests, the log lines, and the exit code. -/
structure Process where
  envPORT : String
  listenAndServe : String → Option String
  served : List (String × Engine)
  logged : List String
  exitCode : Option Nat

def resolveAddress (addr : List String) (p : Process) : Except String String :=
  match addr with
  | [] => if p.envPORT ≠ "" then .ok (":" ++ p.envPORT) else .ok ":8080"
  | [a] => .ok a
  | _ => .error "too many parameters"

/-- Listen on the address and serve with this engine (`Engine.Run`):
`http.ListenAndServe(address, engine.Handler())`, whose error is returned.  The handler
is the engine itself. -/
def Engine.Run (engine : Engine) (addr : List String) (p : Process) :
    Except String (Option String × Process) := do
  let address ← resolveAddress addr p
  pure (p.listenAndServe address, { p with served := p.served ++ [(address, engine)] })

end gin

/-! ## log -/

namespace log

/-- Print the operands and exit with status 1 (`log.Fatal`, which is `Print` followed by
`os.Exit(1)`).  The operands are concatenated as `fmt.Sprint` does for strings; the date
and time that the standard logger puts before the message are not modelled. -/
def Fatal (v : List String) (p : gin.Process) : gin.Process :=
  { p with logged := p.logged ++ [String.join v], exitCode := some 1 }

end log

/-! ## internal/router/router.go -/

namespace router

/-- The router of the program: `gin.Default()`, then `r.GET("/", handler.Initial)` and
`r.GET("/ping", handler.Ping)`.  The two handlers are passed as the `HandlerFunc` values
`.Initial` and `.Ping`, whose call is `handler.Initial` and `handler.Ping`.  A panic of a
registration is `Except.error`. -/
def SetupRouter : Except String gin.Engine := do
  let r ← gin.Default
  let r ← r.GET "/" [.Initial]
  let r ← r.GET "/ping" [.Ping]
  return r

end router

/-! ## cmd/myapp/main.go -/

namespace myapp

/-- The program's `main`, as a transformation of the process state.  A panic while the
router is built (`Except.error`) ends the process with exit status 2. -/
def main (p : gin.Process) : gin.Process :=
  match router.SetupRouter with
  | .error msg => { p with logged := p.logged ++ ["panic: " ++ msg], exitCode := some 2 }
  | .ok r =>
    match r.Run [":8080"] p with
    | .error msg => { p with logged := p.logged ++ ["panic: " ++ msg], exitCode := some 2 }
    | .ok (some err, p1) => log.Fatal ["ListenAndServe: ", err] p1
    | .ok (none, p1) => p1

end myapp

/-! ## Values used in the proofs -/

namespace router

/-- The node for the segment `ping` below the root. -/
def pingNode : gin.node :=
  gin.node.mk ['p', 'i', 'n', 'g'] [] false .static [] (some [.Logger, .Recovery, .Ping])
    ['/', 'p', 'i', 'n', 'g']

/-- The GET tree after the two registrations. -/
def rootNode : gin.node :=
  gin.node.mk ['/'] ['p'] false .root [pingNode] (some [.Logger, .Recovery, .Initial]) ['/']

/-- The engine after the two registrations, with a given pool of recycled contexts. -/
def built (pool : List gin.Context) : gin.Engine :=
  { Handlers := [.Logger, .Recovery], basePath := ['/'],
    RedirectTrailingSlash := true, RedirectFixedPath := false, HandleMethodNotAllowed := false,
    UseRawPath := false, RemoveExtraSlash := false,
    noRoute := [], noMethod := [],
    allNoRoute := [.Logger, .Recovery], allNoMethod := [.Logger, .Recovery],
    trees := [{ method := "GET", root := rootNode }],
    pool := pool }

/-- The context `ServeHTTP` hands to the dispatcher: everything reset, for a new
recorder and this request. -/
def fresh (req : http.Request) : gin.Context :=
  { Request := req,
    writermem :=
      { ResponseWriter := http.NewRecorder, size := gin.noWritten, status := gin.defaultStatus },
    Params := [], handlers := [], index := -1, fullPath := "", Keys := [], Errors := [] }

end router

/-! ## A server loop: one request after the other -/

namespace gin

/-- Serve a sequence of requests one after the other on the same engine, each on a new
recorder; returns the engine after the last one. -/
def Engine.serveAll (fuel : Nat) : Engine → List http.Request → Except String Engine
  | engine, [] => .ok engine
  | engine, req :: rest =>
    match engine.ServeHTTP fuel http.NewRecorder req with
    | .error err => .error err
    | .ok (e1, _) => Engine.serveAll fuel e1 rest

end gin

/-! ## Lemmas: the tree built by `SetupRouter` and lookups in it -/

open gin

theorem SetupRouter_built : router.SetupRouter = .ok (router.built []) := by rfl

theorem getValue_pingNode (q : List Char) (h2 : q ≠ ['i', 'n', 'g']) :
    router.pingNode.getValue ('p' :: q) =
      .ok { handlers := none, tsr := decide (q = ['i', 'n', 'g', '/']), fullPath := [] } := by
  rcases q with _ | ⟨c1, _ | ⟨c2, _ | ⟨c3, _ | ⟨c4, _ | ⟨c5, q⟩⟩⟩⟩⟩
  · rfl
  · simp [router.pingNode, node.getValue]
  · simp [router.pingNode, node.getValue]
  · simp [router.pingNode, node.getValue]
    simpa using h2
  · simp [router.pingNode, node.getValue]
    split <;> simp_all
  · simp [router.pingNode, node.getValue]

theorem indexOf_p_none (b : Char) (hb : b ≠ 'p') : List.indexOf? b ['p'] = none := by
  simp [List.indexOf?, List.findIdx?_cons]
  exact fun h => hb h.symm

theorem getValue_rootNode (p : List Char) (h1 : p ≠ ['/']) (h2 : p ≠ ['/', 'p', 'i', 'n', 'g']) :
    router.rootNode.getValue p =
      .ok { handlers := none,
            tsr := decide (p = [] ∨ p = ['/', '/'] ∨ p = ['/', 'p', 'i', 'n', 'g', '/']),
            fullPath := [] } := by
  rcases p with _ | ⟨a, p⟩
  · rfl
  · by_cases ha : a = '/'
    · subst ha
      rcases p with _ | ⟨b, p⟩
      · exact absurd rfl h1
      · by_cases hb : b = 'p'
        · subst hb
          have := getValue_pingNode p (by simpa using h2)
          unfold router.rootNode
          rw [node.getValue]
          simp [node.getValueAt, List.indexOf?, List.findIdx?_cons]
          simpa using this
        · simp [router.rootNode, node.getValue, node.getValueAt, node.trailingSlashAt,
            indexOf_p_none b hb, hb]
    · simp [router.rootNode, node.getValue, node.getValueAt, ha]

/-! ## Lemmas: dispatch on the built engine -/

theorem ServeHTTP_built (fuel : Nat) (pool : List Context) (req : http.Request) :
    (router.built pool).ServeHTTP fuel http.NewRecorder req =
      (Engine.handleHTTPRequest fuel (router.built pool) (router.fresh req)).map
        (fun c2 => (router.built (c2 :: pool.tail), c2.writermem.ResponseWriter)) := by
  cases pool <;> rfl

theorem handle_ping (n : Nat) (pool : List Context) (req : http.Request)
    (hm : req.Method = "GET") (hp : req.Path = "/ping") :
    Engine.handleHTTPRequest (n + 9) (router.built pool) (router.fresh req) =
      .ok { handler.Ping { router.fresh req with
              handlers := [.Logger, .Recovery, .Ping], fullPath := "/ping", index := 2 }
            with index := 5 } := by
  obtain ⟨m, p, q, h, b⟩ := req
  simp only at hm hp
  subst hm hp
  rfl

theorem handle_initial (n : Nat) (pool : List Context) (req : http.Request)
    (hm : req.Method = "GET") (hp : req.Path = "/") :
    Engine.handleHTTPRequest (n + 9) (router.built pool) (router.fresh req) =
      .ok { handler.Initial { router.fresh req with
              handlers := [.Logger, .Recovery, .Initial], fullPath := "/", index := 2 }
            with index := 5 } := by
  obtain ⟨m, p, q, h, b⟩ := req
  simp only at hm hp
  subst hm hp
  rfl

theorem serveNotFound_built (n : Nat) (pool : List Context) (req : http.Request) :
    Engine.serveNotFound (n + 8) (router.built pool) (router.fresh req) =
      .ok { router.fresh req with
              handlers := [.Logger, .Recovery], index := 4,
              writermem :=
                { ResponseWriter :=
                    { Header := [("Content-Type", "text/plain")], Code := some 404,
                      Body := ["404 page not found"] },
                  size := 18, status := 404 } } := by
  rfl

theorem handle_other_method (fuel : Nat) (pool : List Context) (req : http.Request)
    (hm : req.Method ≠ "GET") :
    Engine.handleHTTPRequest fuel (router.built pool) (router.fresh req) =
      Engine.serveNotFound fuel (router.built pool) (router.fresh req) := by
  have : ("GET" == req.Method) = false := by simpa using fun h => hm h.symm
  simp [Engine.handleHTTPRequest, router.built, router.fresh, this]

theorem handle_get_other (fuel : Nat) (pool : List Context) (req : http.Request)
    (hm : req.Method = "GET") (h1 : req.Path ≠ "/") (h2 : req.Path ≠ "/ping") :
    Engine.handleHTTPRequest fuel (router.built pool) (router.fresh req) =
      if req.Path = "" ∨ req.Path = "//" ∨ req.Path = "/ping/"
      then .ok (redirectTrailingSlash (router.fresh req))
      else Engine.serveNotFound fuel (router.built pool) (router.fresh req) := by
  obtain ⟨m, p, q, h, b⟩ := req
  simp only at hm h1 h2
  subst hm
  have e1 : p.data ≠ ['/'] := fun h => h1 (String.ext h)
  have e2 : p.data ≠ ['/', 'p', 'i', 'n', 'g'] := fun h => h2 (String.ext h)
  have e3 : (p = "" ∨ p = "//" ∨ p = "/ping/") ↔
      (p.data = [] ∨ p.data = ['/', '/'] ∨ p.data = ['/', 'p', 'i', 'n', 'g', '/']) := by
    simp [String.ext_iff]
  have hv := getValue_rootNode p.data e1 e2
  simp only [Engine.handleHTTPRequest, router.built, router.fresh]
  simp only [hv, e3]
  by_cases hc : p.data = [] ∨ p.data = ['/', '/'] ∨ p.data = ['/', 'p', 'i', 'n', 'g', '/']
  · simp [hv, hc, e1, bind, Except.bind, pure, Except.pure, http.MethodConnect]
  · simp [hv, hc, e1, bind, Except.bind, pure, Except.pure, http.MethodConnect]

theorem redirect_get (req : http.Request) (hm : req.Method = "GET") :
    (redirectTrailingSlash (router.fresh req)).handlers = [] ∧
    (redirectTrailingSlash (router.fresh req)).writermem.ResponseWriter.Code = some 301 := by
  obtain ⟨m, p, q, h, b⟩ := req
  simp only at hm
  subst hm
  exact ⟨rfl, rfl⟩

theorem ServeHTTP_of_handle (fuel : Nat) (pool : List Context) (req : http.Request) (c : Context)
    (h : Engine.handleHTTPRequest fuel (router.built pool) (router.fresh req) = .ok c) :
    (router.built pool).ServeHTTP fuel http.NewRecorder req =
      .ok (router.built (c :: pool.tail), c.writermem.ResponseWriter) := by
  rw [ServeHTTP_built, h]
  rfl

theorem fuel_split (k fuel : Nat) (h : k ≤ fuel) : ∃ n, fuel = n + k :=
  ⟨fuel - k, by omega⟩

/-! ## The claims -/

/-- C1. Every GET request for the path `/ping`, whatever its query string, headers and
body, is served by the router of `SetupRouter` through the chain that ends in
`handler.Ping`, which runs to its end; the response has status 200 and its body is the
JSON text with the keys `message` and `message2`, in that order, and the values `pong`
and `Soy Crack`. -/
theorem get_ping_returns_pong (fuel : Nat) (req : http.Request) (hfuel : 9 ≤ fuel)
    (hm : req.Method = "GET") (hp : req.Path = "/ping") :
    ∃ r r1 w c pool, router.SetupRouter = .ok r ∧
      r.ServeHTTP fuel http.NewRecorder req = .ok (r1, w) ∧
      r1.pool = c :: pool ∧
      c.handlers = [.Logger, .Recovery, .Ping] ∧ c.handlers.Last = some .Ping ∧
      c.IsAborted = false ∧
      w.status = 200 ∧
      w.body = "\x7b\"message\":\"pong\",\"message2\":\"Soy Crack\"\x7d" := by
  obtain ⟨n, rfl⟩ := fuel_split 9 fuel hfuel
  have h := ServeHTTP_of_handle _ [] req _ (handle_ping n [] req hm hp)
  exact ⟨_, _, _, _, _, SetupRouter_built, h, rfl, rfl, rfl, rfl, rfl, rfl⟩

theorem get_ping_returns_pong_witness :
    ∃ r r1 w c pool, router.SetupRouter = .ok r ∧
      r.ServeHTTP 9 http.NewRecorder
        { Method := "GET", Path := "/ping", RawQuery := "x=1&message=hi",
          Header := [("Accept", "text/html")], Body := "ignored" } = .ok (r1, w) ∧
      r1.pool = c :: pool ∧
      c.handlers = [.Logger, .Recovery, .Ping] ∧ c.handlers.Last = some .Ping ∧
      c.IsAborted = false ∧
      w.status = 200 ∧
      w.body = "\x7b\"message\":\"pong\",\"message2\":\"Soy Crack\"\x7d" :=
  get_ping_returns_pong 9 _ (by decide) rfl rfl

/-- C2. Every GET request for the path `/` is served by the router of `SetupRouter`
through the chain that ends in `handler.Initial`, which runs to its end; the response has
status 200 and its body is the JSON text with the keys `message` and `message2`, in that
order, and the values `Initial` and `Mensaje de Bienvenida`. -/
theorem get_root_returns_initial (fuel : Nat) (req : http.Request) (hfuel : 9 ≤ fuel)
    (hm : req.Method = "GET") (hp : req.Path = "/") :
    ∃ r r1 w c pool, router.SetupRouter = .ok r ∧
      r.ServeHTTP fuel http.NewRecorder req = .ok (r1, w) ∧
      r1.pool = c :: pool ∧
      c.handlers = [.Logger, .Recovery, .Initial] ∧ c.handlers.Last = some .Initial ∧
      c.IsAborted = false ∧
      w.status = 200 ∧
      w.body = "\x7b\"message\":\"Initial\",\"message2\":\"Mensaje de Bienvenida\"\x7d" := by
  obtain ⟨n, rfl⟩ := fuel_split 9 fuel hfuel
  have h := ServeHTTP_of_handle _ [] req _ (handle_initial n [] req hm hp)
  exact ⟨_, _, _, _, _, SetupRouter_built, h, rfl, rfl, rfl, rfl, rfl, rfl⟩

theorem get_root_returns_initial_witness :
    ∃ r r1 w c pool, router.SetupRouter = .ok r ∧
      r.ServeHTTP 12 http.NewRecorder
        { Method := "GET", Path := "/", RawQuery := "", Header := [], Body := "" } = .ok (r1, w) ∧
      r1.pool = c :: pool ∧
      c.handlers = [.Logger, .Recovery, .Initial] ∧ c.handlers.Last = some .Initial ∧
      c.IsAborted = false ∧
      w.status = 200 ∧
      w.body = "\x7b\"message\":\"Initial\",\"message2\":\"Mensaje de Bienvenida\"\x7d" :=
  get_root_returns_initial 12 _ (by decide) rfl rfl

/-- C3, counterexample. The GET request for `/ping/` (a path that is neither `/` nor
`/ping`) is not answered with 404: the router built by `SetupRouter` answers 301 with
`Location: /ping`. -/
theorem get_ping_slash_is_redirected :
    ∃ r r1 w, router.SetupRouter = .ok r ∧
      r.ServeHTTP 9 http.NewRecorder
        { Method := "GET", Path := "/ping/", RawQuery := "", Header := [], Body := "" } = .ok (r1, w) ∧
      w.status = 301 ∧ w.status ≠ 404 ∧ w.Header.Get "Location" = "/ping" :=
  ⟨_, _, _, SetupRouter_built, rfl, rfl, by decide, rfl⟩

/-- C3, amended. For every request, of any method, whose path is neither `/` nor `/ping`,
the router built by `SetupRouter` runs neither `Ping` nor `Initial`; the status is 404,
except that a GET request whose path is `/ping/`, `//` or empty (a registered path plus or
minus one trailing slash) is answered with the redirect status 301. -/
theorem other_paths_reach_no_handler (fuel : Nat) (req : http.Request) (hfuel : 8 ≤ fuel)
    (h1 : req.Path ≠ "/") (h2 : req.Path ≠ "/ping") :
    ∃ r r1 w c pool, router.SetupRouter = .ok r ∧
      r.ServeHTTP fuel http.NewRecorder req = .ok (r1, w) ∧
      r1.pool = c :: pool ∧
      HandlerFunc.Ping ∉ c.handlers ∧ HandlerFunc.Initial ∉ c.handlers ∧
      w.status =
        (if req.Method = "GET" ∧ (req.Path = "" ∨ req.Path = "//" ∨ req.Path = "/ping/")
         then 301 else 404) := by
  obtain ⟨n, rfl⟩ := fuel_split 8 fuel hfuel
  by_cases hm : req.Method = "GET"
  · by_cases hc : req.Path = "" ∨ req.Path = "//" ∨ req.Path = "/ping/"
    · have hh := handle_get_other (n + 8) [] req hm h1 h2
      rw [if_pos hc] at hh
      have h := ServeHTTP_of_handle _ [] req _ hh
      obtain ⟨hr1, hr2⟩ := redirect_get req hm
      refine ⟨_, _, _, _, _, SetupRouter_built, h, rfl, ?_, ?_, ?_⟩
      · rw [hr1]; simp
      · rw [hr1]; simp
      · rw [if_pos ⟨hm, hc⟩]
        simp [http.ResponseRecorder.status, hr2]
    · have hh := handle_get_other (n + 8) [] req hm h1 h2
      rw [if_neg hc, serveNotFound_built] at hh
      have h := ServeHTTP_of_handle _ [] req _ hh
      refine ⟨_, _, _, _, _, SetupRouter_built, h, rfl, by simp, by simp, ?_⟩
      rw [if_neg (fun hx => hc hx.2)]
      rfl
  · have hh := handle_other_method (n + 8) [] req hm
    rw [serveNotFound_built] at hh
    have h := ServeHTTP_of_handle _ [] req _ hh
    refine ⟨_, _, _, _, _, SetupRouter_built, h, rfl, by simp, by simp, ?_⟩
    rw [if_neg (fun hx => hm hx.1)]
    rfl

theorem other_paths_reach_no_handler_witness :
    ∃ r r1 w c pool, router.SetupRouter = .ok r ∧
      r.ServeHTTP 8 http.NewRecorder
        { Method := "GET", Path := "/PING", RawQuery := "", Header := [], Body := "" } = .ok (r1, w) ∧
      r1.pool = c :: pool ∧
      HandlerFunc.Ping ∉ c.handlers ∧ HandlerFunc.Initial ∉ c.handlers ∧
      w.status = 404 :=
  other_paths_reach_no_handler 8
    { Method := "GET", Path := "/PING", RawQuery := "", Header := [], Body := "" }
    (by decide) (by decide) (by decide)

/-- C4. Every request whose method is not GET, in particular one for `/` or `/ping`, is
answered by the router built by `SetupRouter` with gin's default not-found response:
only the middleware chain runs (neither `Ping` nor `Initial`), the status is 404 (not 200,
not 405) and the body is `404 page not found`. -/
theorem other_methods_are_not_found (fuel : Nat) (req : http.Request) (hfuel : 8 ≤ fuel)
    (hm : req.Method ≠ "GET") :
    ∃ r r1 w c pool, router.SetupRouter = .ok r ∧
      r.ServeHTTP fuel http.NewRecorder req = .ok (r1, w) ∧
      r1.pool = c :: pool ∧
      c.handlers = [.Logger, .Recovery] ∧
      w.status = 404 ∧ w.status ≠ 200 ∧ w.status ≠ 405 ∧
      w.body = "404 page not found" ∧ w.Header = [("Content-Type", "text/plain")] := by
  obtain ⟨n, rfl⟩ := fuel_split 8 fuel hfuel
  have hh := handle_other_method (n + 8) [] req hm
  rw [serveNotFound_built] at hh
  have h := ServeHTTP_of_handle _ [] req _ hh
  exact ⟨_, _, _, _, _, SetupRouter_built, h, rfl, rfl, rfl,
    by show (404 : Nat) ≠ 200; decide, by show (404 : Nat) ≠ 405; decide, rfl, rfl⟩

theorem other_methods_are_not_found_witness :
    ∃ r r1 w c pool, router.SetupRouter = .ok r ∧
      r.ServeHTTP 8 http.NewRecorder
        { Method := "POST", Path := "/ping", RawQuery := "", Header := [], Body := "x" } = .ok (r1, w) ∧
      r1.pool = c :: pool ∧
      c.handlers = [.Logger, .Recovery] ∧
      w.status = 404 ∧ w.status ≠ 200 ∧ w.status ≠ 405 ∧
      w.body = "404 page not found" ∧ w.Header = [("Content-Type", "text/plain")] :=
  other_methods_are_not_found 8
    { Method := "POST", Path := "/ping", RawQuery := "", Header := [], Body := "x" }
    (by decide) (by decide)

/-! ## Lemmas: the two handlers -/

theorem Marshal_ping :
    json.Marshal [("message", .string "pong"), ("message2", .string "Soy Crack")] =
      .ok "\x7b\"message\":\"pong\",\"message2\":\"Soy Crack\"\x7d" := by rfl

theorem Marshal_initial :
    json.Marshal [("message", .string "Initial"), ("message2", .string "Mensaje de Bienvenida")] =
      .ok "\x7b\"message\":\"Initial\",\"message2\":\"Mensaje de Bienvenida\"\x7d" := by rfl

theorem Ping_eq (c : Context) :
    handler.Ping c =
      { c with writermem :=
          ((render.writeContentType (c.writermem.WriteHeader 200) render.jsonContentType).Write
            "\x7b\"message\":\"pong\",\"message2\":\"Soy Crack\"\x7d") } := by
  rfl

theorem Initial_eq (c : Context) :
    handler.Initial c =
      { c with writermem :=
          ((render.writeContentType (c.writermem.WriteHeader 200) render.jsonContentType).Write
            "\x7b\"message\":\"Initial\",\"message2\":\"Mensaje de Bienvenida\"\x7d") } := by
  rfl

theorem perm_pair_cases {α : Type} (x y : α) (hne : x ≠ y) (m : List α) (h : m.Perm [x, y]) :
    m = [x, y] ∨ m = [y, x] := by
  have hl : m.length = 2 := by simpa using h.length_eq
  obtain ⟨a, b, rfl⟩ := List.length_eq_two.mp hl
  have ha : a ∈ [x, y] := h.subset (by simp)
  have hb : b ∈ [x, y] := h.subset (by simp)
  have hx : x ∈ [a, b] := h.symm.subset (by simp)
  have hy : y ∈ [a, b] := h.symm.subset (by simp)
  simp only [List.mem_cons, List.mem_singleton, List.not_mem_nil, or_false] at ha hb hx hy
  rcases ha with rfl | rfl <;> rcases hb with rfl | rfl
  · rcases hy with rfl | rfl <;> exact absurd rfl hne
  · exact Or.inl rfl
  · exact Or.inr rfl
  · rcases hx with rfl | rfl <;> exact absurd rfl hne

/-- C5. The handlers ignore the request. Two GET requests for the same registered path
(`/ping` or `/`), differing arbitrarily in query string, headers and body, get the same
response from the router built by `SetupRouter`: the same status, headers and body
bytes. And whatever else differs between two contexts (request included), `Ping` and
`Initial` leave equal response writers in equal states. -/
theorem handlers_ignore_request (fuel : Nat) (req1 req2 : http.Request) (c1 c2 : Context)
    (hfuel : 9 ≤ fuel) (hm1 : req1.Method = "GET") (hm2 : req2.Method = "GET")
    (hp : req1.Path = "/ping" ∨ req1.Path = "/") (hpp : req2.Path = req1.Path)
    (hw : c1.writermem = c2.writermem) :
    (∃ r e1 e2 w, router.SetupRouter = .ok r ∧
      r.ServeHTTP fuel http.NewRecorder req1 = .ok (e1, w) ∧
      r.ServeHTTP fuel http.NewRecorder req2 = .ok (e2, w)) ∧
    (handler.Ping c1).writermem = (handler.Ping c2).writermem ∧
    (handler.Initial c1).writermem = (handler.Initial c2).writermem := by
  obtain ⟨n, rfl⟩ := fuel_split 9 fuel hfuel
  refine ⟨?_, ?_, ?_⟩
  · rcases hp with hp | hp
    · have k1 := ServeHTTP_of_handle _ [] req1 _ (handle_ping n [] req1 hm1 hp)
      have k2 := ServeHTTP_of_handle _ [] req2 _ (handle_ping n [] req2 hm2 (hpp.trans hp))
      exact ⟨_, _, _, _, SetupRouter_built, k1, k2⟩
    · have k1 := ServeHTTP_of_handle _ [] req1 _ (handle_initial n [] req1 hm1 hp)
      have k2 := ServeHTTP_of_handle _ [] req2 _ (handle_initial n [] req2 hm2 (hpp.trans hp))
      exact ⟨_, _, _, _, SetupRouter_built, k1, k2⟩
  · rw [Ping_eq, Ping_eq, hw]
  · rw [Initial_eq, Initial_eq, hw]

theorem handlers_ignore_request_witness :
    (∃ r e1 e2 w, router.SetupRouter = .ok r ∧
      r.ServeHTTP 9 http.NewRecorder
        { Method := "GET", Path := "/ping", RawQuery := "", Header := [], Body := "" } = .ok (e1, w) ∧
      r.ServeHTTP 9 http.NewRecorder
        { Method := "GET", Path := "/ping", RawQuery := "message=changed",
          Header := [("Content-Type", "text/xml"), ("X-Forwarded-Prefix", "/api")],
          Body := "<message>no</message>" } = .ok (e2, w)) ∧
    (handler.Ping (router.fresh
        { Method := "GET", Path := "/ping", RawQuery := "", Header := [], Body := "" })).writermem =
      (handler.Ping (router.fresh
        { Method := "PUT", Path := "/else", RawQuery := "a=b", Header := [("A", "b")],
          Body := "zzz" })).writermem ∧
    (handler.Initial (router.fresh
        { Method := "GET", Path := "/ping", RawQuery := "", Header := [], Body := "" })).writermem =
      (handler.Initial (router.fresh
        { Method := "PUT", Path := "/else", RawQuery := "a=b", Header := [("A", "b")],
          Body := "zzz" })).writermem :=
  handlers_ignore_request 9 _ _ _ _ (by decide) rfl rfl (Or.inl rfl) rfl rfl

/-! ## Lemmas: the engine between requests -/

theorem serveNotFound_total (req : http.Request) :
    ∃ c, ∀ n pool, Engine.serveNotFound (n + 8) (router.built pool) (router.fresh req) = .ok c :=
  ⟨_, fun n pool => serveNotFound_built n pool req⟩

theorem handle_total (n : Nat) (req : http.Request) :
    ∃ c, ∀ pool, Engine.handleHTTPRequest (n + 9) (router.built pool) (router.fresh req) = .ok c := by
  by_cases hm : req.Method = "GET"
  · by_cases h1 : req.Path = "/"
    · exact ⟨_, fun pool => handle_initial n pool req hm h1⟩
    · by_cases h2 : req.Path = "/ping"
      · exact ⟨_, fun pool => handle_ping n pool req hm h2⟩
      · by_cases hc : req.Path = "" ∨ req.Path = "//" ∨ req.Path = "/ping/"
        · refine ⟨redirectTrailingSlash (router.fresh req), fun pool => ?_⟩
          rw [handle_get_other (n + 9) pool req hm h1 h2, if_pos hc]
        · obtain ⟨c, h⟩ := serveNotFound_total req
          refine ⟨c, fun pool => ?_⟩
          rw [handle_get_other (n + 9) pool req hm h1 h2, if_neg hc]
          exact h (n + 1) pool
  · obtain ⟨c, h⟩ := serveNotFound_total req
    refine ⟨c, fun pool => ?_⟩
    rw [handle_other_method (n + 9) pool req hm]
    exact h (n + 1) pool

theorem serveAll_built (n : Nat) (earlier : List http.Request) :
    ∀ pool, ∃ pool1, Engine.serveAll (n + 9) (router.built pool) earlier = .ok (router.built pool1) := by
  induction earlier with
  | nil => exact fun pool => ⟨pool, rfl⟩
  | cons req rest ih =>
    intro pool
    obtain ⟨c, hc⟩ := handle_total n req
    obtain ⟨pool1, h1⟩ := ih (c :: pool.tail)
    refine ⟨pool1, ?_⟩
    rw [Engine.serveAll, ServeHTTP_of_handle _ pool req c (hc pool)]
    exact h1

/-- C6. Responses do not depend on what the router served before. After any sequence
of earlier requests to the router built by `SetupRouter` (in particular after any number
of copies of the same request), a request gets exactly the response it gets from the
router when new: the same status, the same headers and the same body bytes. And the
JSON text does not depend on the order in which the entries of a handler's map are
enumerated: every ordering of the two entries is encoded as the same text, keys in
sorted order. -/
theorem responses_do_not_depend_on_history (fuel : Nat) (earlier : List http.Request)
    (req : http.Request) (hfuel : 9 ≤ fuel) :
    (∃ r rn e1 e2 w, router.SetupRouter = .ok r ∧
      r.serveAll fuel earlier = .ok rn ∧
      r.ServeHTTP fuel http.NewRecorder req = .ok (e1, w) ∧
      rn.ServeHTTP fuel http.NewRecorder req = .ok (e2, w)) ∧
    (∀ m : gin.H, m.Perm [("message", .string "pong"), ("message2", .string "Soy Crack")] →
      json.Marshal m = .ok "\x7b\"message\":\"pong\",\"message2\":\"Soy Crack\"\x7d") ∧
    (∀ m : gin.H,
      m.Perm [("message", .string "Initial"), ("message2", .string "Mensaje de Bienvenida")] →
      json.Marshal m =
        .ok "\x7b\"message\":\"Initial\",\"message2\":\"Mensaje de Bienvenida\"\x7d") := by
  obtain ⟨n, rfl⟩ := fuel_split 9 fuel hfuel
  refine ⟨?_, ?_, ?_⟩
  · obtain ⟨pool1, h1⟩ := serveAll_built n earlier []
    obtain ⟨c, hc⟩ := handle_total n req
    exact ⟨_, _, _, _, _, SetupRouter_built, h1, ServeHTTP_of_handle _ [] req c (hc []),
      ServeHTTP_of_handle _ pool1 req c (hc pool1)⟩
  · intro m hm
    rcases perm_pair_cases _ _ (by decide) m hm with rfl | rfl <;> rfl
  · intro m hm
    rcases perm_pair_cases _ _ (by decide) m hm with rfl | rfl <;> rfl

theorem responses_do_not_depend_on_history_witness :
    (∃ r rn e1 e2 w, router.SetupRouter = .ok r ∧
      r.serveAll 9
        [{ Method := "GET", Path := "/ping", RawQuery := "", Header := [], Body := "" },
         { Method := "POST", Path := "/nowhere", RawQuery := "", Header := [], Body := "x" },
         { Method := "GET", Path := "/ping", RawQuery := "", Header := [], Body := "" }] = .ok rn ∧
      r.ServeHTTP 9 http.NewRecorder
        { Method := "GET", Path := "/ping", RawQuery := "", Header := [], Body := "" } = .ok (e1, w) ∧
      rn.ServeHTTP 9 http.NewRecorder
        { Method := "GET", Path := "/ping", RawQuery := "", Header := [], Body := "" } = .ok (e2, w)) ∧
    (∀ m : gin.H, m.Perm [("message", .string "pong"), ("message2", .string "Soy Crack")] →
      json.Marshal m = .ok "\x7b\"message\":\"pong\",\"message2\":\"Soy Crack\"\x7d") ∧
    (∀ m : gin.H,
      m.Perm [("message", .string "Initial"), ("message2", .string "Mensaje de Bienvenida")] →
      json.Marshal m =
        .ok "\x7b\"message\":\"Initial\",\"message2\":\"Mensaje de Bienvenida\"\x7d") :=
  responses_do_not_depend_on_history 9 _ _ (by decide)

/-- C7. `main` builds the router with `SetupRouter` and starts that router, once, on the
address `:8080`: the one call of `http.ListenAndServe` it makes is for `:8080` with the
engine `SetupRouter` returned as the handler (the engine whose route table is GET `/` to
`Initial` and GET `/ping` to `Ping`). When the listener returns an error, `main` logs the
line `ListenAndServe: ` followed by the error and exits with status 1; when it returns no
error, `main` logs nothing and sets no exit status. There is no second attempt to listen. -/
theorem main_serves_the_router_on_8080_and_is_fatal_on_error (p : gin.Process) :
    ∃ r, router.SetupRouter = .ok r ∧
      r.Routes =
        [{ Method := "GET", Path := "/", HandlerFunc := some .Initial },
         { Method := "GET", Path := "/ping", HandlerFunc := some .Ping }] ∧
      myapp.main p =
        match p.listenAndServe ":8080" with
        | some err =>
          { p with served := p.served ++ [(":8080", r)],
                   logged := p.logged ++ ["ListenAndServe: " ++ err],
                   exitCode := some 1 }
        | none => { p with served := p.served ++ [(":8080", r)] } := by
  refine ⟨_, SetupRouter_built, rfl, ?_⟩
  unfold myapp.main
  rw [SetupRouter_built]
  simp only [Engine.Run, resolveAddress, bind, Except.bind, pure, Except.pure]
  cases h : p.listenAndServe ":8080" with
  | none => rfl
  | some err => simp [log.Fatal, String.join]

/-- C8. The route table of the router built by `SetupRouter` has exactly two entries, in
this order: GET `/` with main handler `Initial` and GET `/ping` with main handler `Ping`.
GET is the only method that has a tree, and the chains registered for the two paths are
the two middleware of `gin.Default` followed by the handler. `SetupRouter` takes no
input, so every call builds this table. -/
theorem setup_router_route_table :
    ∃ r, router.SetupRouter = .ok r ∧
      r.Routes =
        [{ Method := "GET", Path := "/", HandlerFunc := some .Initial },
         { Method := "GET", Path := "/ping", HandlerFunc := some .Ping }] ∧
      r.trees.map (fun t => t.method) = ["GET"] ∧
      r.trees.map (fun t => t.root.getValue ['/']) =
        [.ok { handlers := some [.Logger, .Recovery, .Initial], tsr := false, fullPath := ['/'] }] ∧
      r.trees.map (fun t => t.root.getValue ['/', 'p', 'i', 'n', 'g']) =
        [.ok { handlers := some [.Logger, .Recovery, .Ping], tsr := false,
               fullPath := ['/', 'p', 'i', 'n', 'g'] }] :=
  ⟨_, SetupRouter_built, rfl, rfl, rfl, rfl⟩

/-- C9. `Ping` and `Initial` change nothing in the context but the response writer: the
request, parameters, handler chain, index (so the chain is not aborted), matched path,
keys and errors are as before. On a context whose response has not been started (nothing
written, no status line sent, no content type set), as the router hands it to them, the
writer afterwards has status 200, the header `Content-Type: application/json;
charset=utf-8` added, and exactly one more body chunk, the JSON text. -/
theorem handlers_only_write_the_response (c : Context) :
    handler.Ping c = { c with writermem := (handler.Ping c).writermem } ∧
    handler.Initial c = { c with writermem := (handler.Initial c).writermem } ∧
    (handler.Ping c).IsAborted = c.IsAborted ∧ (handler.Initial c).IsAborted = c.IsAborted ∧
    (handler.Ping c).Errors = c.Errors ∧ (handler.Initial c).Errors = c.Errors ∧
    (c.writermem.Written = false → c.writermem.ResponseWriter.Code = none →
      c.writermem.Header.find? (fun kv => kv.1 == "Content-Type") = none →
      (handler.Ping c).writermem =
        { ResponseWriter :=
            { Header := c.writermem.Header.Set "Content-Type" "application/json; charset=utf-8",
              Code := some 200,
              Body := c.writermem.ResponseWriter.Body ++
                ["\x7b\"message\":\"pong\",\"message2\":\"Soy Crack\"\x7d"] },
          size := 41, status := 200 } ∧
      (handler.Initial c).writermem =
        { ResponseWriter :=
            { Header := c.writermem.Header.Set "Content-Type" "application/json; charset=utf-8",
              Code := some 200,
              Body := c.writermem.ResponseWriter.Body ++
                ["\x7b\"message\":\"Initial\",\"message2\":\"Mensaje de Bienvenida\"\x7d"] },
          size := 56, status := 200 }) := by
  refine ⟨rfl, rfl, rfl, rfl, rfl, rfl, ?_⟩
  intro hw hc hh
  obtain ⟨rq, ⟨⟨hdr, code, body⟩, size, status⟩, ps, hs, ix, fp, ks, es⟩ := c
  simp only [responseWriter.Header] at hc hh
  subst hc
  rw [Ping_eq, Initial_eq]
  simp only [responseWriter.Written, noWritten, bne_eq_false_iff_eq] at hw
  subst hw
  have hf : List.find? (fun kv => kv.1 == "Content-Type") hdr = none := hh
  by_cases hs : status = 200
  · subst hs
    simp [responseWriter.WriteHeader, render.writeContentType, responseWriter.Write,
      responseWriter.WriteHeaderNow, responseWriter.Written, responseWriter.setHeader,
      responseWriter.Header, http.ResponseRecorder.Write, http.ResponseRecorder.WriteHeader,
      noWritten, render.jsonContentType, hf]
    exact ⟨rfl, rfl⟩
  · simp [responseWriter.WriteHeader, render.writeContentType, responseWriter.Write,
      responseWriter.WriteHeaderNow, responseWriter.Written, responseWriter.setHeader,
      responseWriter.Header, http.ResponseRecorder.Write, http.ResponseRecorder.WriteHeader,
      noWritten, render.jsonContentType, hf, hs]
    exact ⟨rfl, rfl⟩

theorem handlers_only_write_the_response_witness :
    (handler.Ping (router.fresh
        { Method := "GET", Path := "/ping", RawQuery := "", Header := [], Body := "" })).writermem =
      { ResponseWriter :=
          { Header := [("Content-Type", "application/json; charset=utf-8")],
            Code := some 200,
            Body := ["\x7b\"message\":\"pong\",\"message2\":\"Soy Crack\"\x7d"] },
        size := 41, status := 200 } ∧
    (handler.Initial (router.fresh
        { Method := "GET", Path := "/ping", RawQuery := "", Header := [], Body := "" })).writermem =
      { ResponseWriter :=
          { Header := [("Content-Type", "application/json; charset=utf-8")],
            Code := some 200,
            Body := ["\x7b\"message\":\"Initial\",\"message2\":\"Mensaje de Bienvenida\"\x7d"] },
        size := 56, status := 200 } :=
  (handlers_only_write_the_response (router.fresh
    { Method := "GET", Path := "/ping", RawQuery := "", Header := [], Body := "" })).2.2.2.2.2.2
    rfl rfl rfl
